import Mathlib

/-!
Shallow embedding of the `bugsnag` Go client library (package `bugsnag`,
Client-based variant plus its glue), faithful to the source:

* Go `map[string]V` values are modelled as `Option (List (String × V))`:
  `none` is the nil map, `some l` a non-nil map with association list `l`
  (entries keyed uniquely, maintained by `assocInsert`).
* A Go `error` interface value is modelled by `GoError`: the pair of its
  runtime type name (`reflect.TypeOf(err).String()`) and its textual
  description (`err.Error()`).
* The runtime stack walker `runtime.Caller` is modelled by an explicit
  list of raw frames supplied as a parameter; `runtime.Caller(i)` for
  increasing `i` starting at `skip` corresponds to iterating the list
  after dropping `skip` elements.
* The global `TraceFilterFunc` hook is passed explicitly as an
  `Option (List Stacktrace → List Stacktrace)`.
* `http.Post` is modelled by a `NetOutcome` oracle parameter; the list of
  issued POST payloads is returned explicitly so that "no network call"
  is a statement about that list.
-/

namespace Bugsnag

/-- A value stored under a metadata key (Go `interface\x7b\x7d`): a string,
an integer, or some other value (indexed abstractly). -/
inductive GoValue where
  | str : String → GoValue
  | int : Int → GoValue
  | other : Nat → GoValue
deriving DecidableEq, Repr

/-- A non-nil Go `error` value: its runtime type name and its message. -/
structure GoError where
  typeName : String
  message : String
deriving DecidableEq, Repr

/-- Association-list lookup, first binding wins (keys are kept unique). -/
def assocLookup {V : Type} (l : List (String × V)) (k : String) : Option V :=
  match l with
  | [] => none
  | (k', v) :: rest => if k' = k then some v else assocLookup rest k

/-- Association-list update-or-append, the Go `m[k] = v` on a map with
entry list `l`. -/
def assocInsert {V : Type} (l : List (String × V)) (k : String) (v : V) :
    List (String × V) :=
  match l with
  | [] => [(k, v)]
  | (k', v') :: rest =>
    if k' = k then (k', v) :: rest else (k', v') :: assocInsert rest k v

/-- One stack frame of the wire format (struct `Stacktrace`, integer
line-number variant). -/
structure Stacktrace where
  File : String
  LineNumber : Int
  Method : String
  InProject : Bool
deriving DecidableEq, Repr

/-- Struct `Exception`: one causal frame of the error. -/
structure Exception where
  ErrorClass : String
  Message : String
  Stacktrace : List Stacktrace
deriving DecidableEq, Repr

/-- Struct `App`. -/
structure App where
  Version : String
  ReleaseStage : String
deriving DecidableEq, Repr

/-- Struct `Notifier`. -/
structure Notifier where
  Name : String
  Version : String
  URL : String
deriving DecidableEq, Repr

/-- A Go `map[string]interface\x7b\x7d` metadata tab: nil or entries. -/
abbrev Tab := Option (List (String × GoValue))

/-- Struct `Event`. `MetaData` is `map[string]map[string]interface\x7b\x7d`:
the outer map may be nil, and each stored tab may itself be nil. -/
structure Event where
  UserID : String := ""
  PayloadVersion : String := ""
  App : Option App := none
  OSVersion : String := ""
  ReleaseStage : String := ""
  Context : String := ""
  Exceptions : List Exception := []
  MetaData : Option (List (String × Tab)) := none
deriving DecidableEq, Repr

/-- Struct `Payload`: the wire envelope of one send. -/
structure Payload where
  APIKey : String
  Notifier : Notifier
  Events : List Event
deriving DecidableEq, Repr

/-- Struct `Client`: the configuration aggregate. -/
structure Client where
  APIKey : String := ""
  OSVersion : String := ""
  Protocol : String := ""
  AutoNotify : Bool := true
  UseSSL : Bool := true
  Verbose : Bool := false
  Url : String := "notify.bugsnag.com"
  Indent : Bool := false
  ReleaseStage : String := "production"
  NotifyReleaseStages : List String := ["production"]
  Hostname : String := ""
  Notifier : Notifier :=
    ⟨"Bugsnag Go", "0.1", "https://github.com/Mistobaan/bugsnag"⟩
  App : Option App := none
deriving DecidableEq, Repr

/-- `dunno`: the name reported when `runtime.FuncForPC` yields nil. -/
def dunno : String := "???"

/-- The characters after the first `'.'` of a list, `none` when the list
has no `'.'` (mirrors `strings.Index(name, ".")` plus the slice
`name[period+1:]`). -/
def afterFirstDot : List Char → Option (List Char)
  | [] => none
  | c :: cs => if c = '.' then some cs else afterFirstDot cs

/-- The Go slice `name[period+1:]` guarded by `period >= 0`: the suffix of
`name` after its first period, or `name` itself when it has none. -/
def stripPackage (name : String) : String :=
  match afterFirstDot name.data with
  | none => name
  | some cs => String.mk cs

/-- `strings.Replace(name, centerDot, dot, -1)`: both patterns are single
characters, so the replacement is a character map. -/
def replaceCenterDot (name : String) : String :=
  String.mk (name.data.map (fun c => if c = '·' then '.' else c))

/-- Function `function`: the name of the function containing a PC, package
qualifier stripped through the first period, center dots replaced by
periods. The `runtime.FuncForPC` result is modelled as `Option String`. -/
def function (fn : Option String) : String :=
  match fn with
  | none => dunno
  | some name => replaceCenterDot (stripPackage name)

/-- One raw result of `runtime.Caller`: the `FuncForPC` name for the PC
(`none` when the runtime has no function for it), the file, the line. -/
structure RawFrame where
  fnName : Option String
  file : String
  line : Int
deriving DecidableEq, Repr

/-- `strings.Contains(file, "go/src/pkg/")`. -/
def containsGoSrcPkg (file : String) : Bool :=
  decide ("go/src/pkg/".data <:+: file.data)

/-- Function `stacktrace`: walk the raw frames from index `skip` outward,
drop frames whose stripped method name is `"panic"`, then, when the
global `TraceFilterFunc` hook is set, return its output verbatim. -/
def stacktrace (tfilter : Option (List Stacktrace → List Stacktrace))
    (frames : List RawFrame) (skip : Nat) : List Stacktrace :=
  let raw := (frames.drop skip).filterMap (fun f =>
    let methodName := function f.fnName
    if methodName = "panic" then none
    else some { File := f.file, LineNumber := f.line, Method := methodName,
                InProject := !containsGoSrcPkg f.file })
  match tfilter with
  | none => raw
  | some g => g raw

/-- Method `Client.New`: build an Event for an error, with the stack
captured at the call (frames passed explicitly, hook passed explicitly). -/
def Client.new (c : Client)
    (tfilter : Option (List Stacktrace → List Stacktrace))
    (frames : List RawFrame) (err : GoError) : Event :=
  { PayloadVersion := "2"
    OSVersion := c.OSVersion
    ReleaseStage := c.ReleaseStage
    App := c.App
    Exceptions := [{ ErrorClass := err.typeName
                     Message := err.message
                     Stacktrace := stacktrace tfilter frames 3 }] }

/-- Method `Event.WithUserID`. -/
def Event.withUserID (event : Event) (userID : String) : Event :=
  { event with UserID := userID }

/-- Method `Event.WithContext`. -/
def Event.withContext (event : Event) (context : String) : Event :=
  { event with Context := context }

/-- Method `Event.WithMetaDataValues`: allocate the outer map if nil, then
store `values` wholesale under `tab` (overwriting any prior tab). -/
def Event.withMetaDataValues (event : Event) (tab : String) (values : Tab) :
    Event :=
  let md := event.MetaData.getD []
  { event with MetaData := some (assocInsert md tab values) }

/-- Method `Event.WithMetaData`: allocate the outer map if nil, allocate
the tab's map if nil (absent or stored nil), then set `name ↦ value`. -/
def Event.withMetaData (event : Event) (tab name : String) (value : GoValue) :
    Event :=
  let md := event.MetaData.getD []
  let tabMap := ((assocLookup md tab).getD none).getD []
  { event with
    MetaData := some (assocInsert md tab (some (assocInsert tabMap name value))) }

/-- The Go read `event.MetaData[tab]`: nil when the outer map is nil or the
tab absent, otherwise the stored tab (which may itself be nil). -/
def Event.tabOf (event : Event) (tab : String) : Tab :=
  (assocLookup (event.MetaData.getD []) tab).getD none

/-- The entry stored for `key` in tab `tab` (absent when the tab is nil). -/
def Event.metaValue (event : Event) (tab key : String) : Option GoValue :=
  assocLookup ((event.tabOf tab).getD []) key

/-- The outcome of the one `http.Post` a send may issue. -/
inductive NetOutcome where
  | transportError (msg : String)
  | status (code : Nat)
deriving DecidableEq, Repr

/-- What a send / notify did: the POST payloads issued and the returned
Go error (as its message; `none` is a nil error). -/
structure SendResult where
  posts : List Payload
  err : Option String
deriving DecidableEq, Repr

/-- Method `Client.send`: fail before any network I/O when the API key is
empty; otherwise build the payload and POST it once, mapping the
response status (non-200 is a failure). -/
def Client.send (c : Client) (net : NetOutcome) (events : List Event) :
    SendResult :=
  if c.APIKey = "" then { posts := [], err := some "No Api Key Provided" }
  else
    let payload : Payload :=
      { APIKey := c.APIKey, Notifier := c.Notifier, Events := events }
    match net with
    | .transportError msg => { posts := [payload], err := some msg }
    | .status code =>
      if code ≠ 200 then
        { posts := [payload],
          err := some ("Unexpected status code: " ++ toString code) }
      else { posts := [payload], err := none }

/-- Method `Client.Notify`: if the event's release stage occurs in the
configured notify stages, inject the host name metadata (when the
configured host name is non-empty) and send; otherwise do nothing and
return nil. Returns the event as left by the call together with the
send's outcome. -/
def Client.notify (c : Client) (net : NetOutcome) (event : Event) :
    Event × SendResult :=
  if c.NotifyReleaseStages.contains event.ReleaseStage then
    let event' :=
      if c.Hostname ≠ "" then event.withMetaData "host" "name" (.str c.Hostname)
      else event
    (event', c.send net [event'])
  else (event, { posts := [], err := none })

/-- A recovered Go panic value: an error, a string, or any other value
(indexed abstractly). -/
inductive PanicValue where
  | err : GoError → PanicValue
  | str : String → PanicValue
  | other : Nat → PanicValue
deriving DecidableEq, Repr

/-- `errors.New(s)`: a `*errors.errorString` whose message is `s`. -/
def errorsNew (s : String) : GoError :=
  { typeName := "*errors.errorString", message := s }

/-- What `CapturePanic` did: the error it handed to the request-aware
notify path (if any), and the value it re-panicked with (if any). -/
structure CaptureResult where
  reported : Option GoError
  repanicked : Option PanicValue
deriving DecidableEq, Repr

/-- Function `CapturePanic`: on a non-nil recovered value, report it when
it is an error (directly) or a string (wrapped by `errors.New`), and
re-panic with the original value in every non-nil case. -/
def CapturePanic (recovered : Option PanicValue) : CaptureResult :=
  match recovered with
  | none => { reported := none, repanicked := none }
  | some v =>
    { reported :=
        match v with
        | .err e => some e
        | .str s => some (errorsNew s)
        | .other _ => none
      repanicked := some v }

/-- Modelled from the spec (section 4.2): the "unqualified form" of a
function name, with all leading package/namespace qualifiers dropped —
the suffix after the last period. Stated from the spec's words, to be
compared against the source's `function`. -/
def specUnqualifiedName (name : String) : String :=
  String.mk ((name.data.reverse.takeWhile (fun c => c ≠ '.')).reverse)

/-- A stack frame whose unqualified method name is `"panic"`, used to
probe the trace-filter hook path. -/
def panicFrame : Stacktrace :=
  { File := "f.go", LineNumber := 1, Method := "panic", InProject := true }

/-- A trace-filter hook that returns a list containing `panicFrame`. -/
def injectingHook : List Stacktrace → List Stacktrace := fun _ => [panicFrame]

/-! ## Association-list lemmas -/

theorem assocLookup_insert_same {V : Type} (l : List (String × V)) (k : String)
    (v : V) : assocLookup (assocInsert l k v) k = some v := by
  induction l with
  | nil => simp [assocInsert, assocLookup]
  | cons hd tl ih =>
    obtain ⟨k', v'⟩ := hd
    by_cases h : k' = k
    · simp [assocInsert, assocLookup, h]
    · simp [assocInsert, assocLookup, h, ih]

theorem assocLookup_insert_other {V : Type} (l : List (String × V))
    (k k' : String) (v : V) (h : k' ≠ k) :
    assocLookup (assocInsert l k v) k' = assocLookup l k' := by
  have h' : ¬k = k' := fun hh => h hh.symm
  induction l with
  | nil => simp [assocInsert, assocLookup, h']
  | cons hd tl ih =>
    obtain ⟨k₀, v₀⟩ := hd
    by_cases hk : k₀ = k
    · subst hk
      simp [assocInsert, assocLookup, h']
    · simp [assocInsert, assocLookup, hk, ih]

end Bugsnag

namespace Bugsnag

/-! ## Claim theorems -/

/-- C1. For every non-nil error value (modelled by `GoError`, every client
configuration, every hook state and every raw call stack), `Client.new`
produces an Event with exactly one Exception, whose `Message` is the
error's textual description and whose `ErrorClass` is the error's runtime
type name. -/
theorem new_exactly_one_exception (c : Client)
    (tfilter : Option (List Stacktrace → List Stacktrace))
    (frames : List RawFrame) (err : GoError) :
    (c.new tfilter frames err).Exceptions.length = 1 ∧
    (c.new tfilter frames err).Exceptions.map Exception.Message =
      [err.message] ∧
    (c.new tfilter frames err).Exceptions.map Exception.ErrorClass =
      [err.typeName] := by
  simp [Client.new]

/-- C2. For every client, transport behaviour and Event whose release
stage is not a member of the client's notify-stages list, `Client.notify`
issues no POST, returns a nil error, and leaves the Event unchanged. -/
theorem notify_suppressed_stage_no_effect (c : Client) (net : NetOutcome)
    (event : Event) (h : event.ReleaseStage ∉ c.NotifyReleaseStages) :
    c.notify net event = (event, { posts := [], err := none }) := by
  have hc : c.NotifyReleaseStages.contains event.ReleaseStage = false := by
    simpa using h
  unfold Client.notify
  rw [hc]
  simp

/-- Witness for C2 at a concrete client and event. -/
theorem notify_suppressed_stage_no_effect_witness :
    ({ ReleaseStage := "staging" } : Event).ReleaseStage ∉
      ({ } : Client).NotifyReleaseStages ∧
    ({ } : Client).notify (.status 200) { ReleaseStage := "staging" } =
      ({ ReleaseStage := "staging" }, { posts := [], err := none }) :=
  ⟨by decide,
   notify_suppressed_stage_no_effect { } (.status 200)
     { ReleaseStage := "staging" } (by decide)⟩

/-- C4. Every Event built by `Client.new` has at least one Exception, and
each of `withUserID`, `withContext`, `withMetaDataValues`, `withMetaData`
and `Client.notify` preserves a non-empty Exceptions list (notify neither
removes nor empties it in the event it leaves behind). -/
theorem event_always_has_exception (c : Client)
    (tfilter : Option (List Stacktrace → List Stacktrace))
    (frames : List RawFrame) (err : GoError) :
    (c.new tfilter frames err).Exceptions ≠ [] ∧
    (∀ (e : Event) (u : String),
      e.Exceptions ≠ [] → (e.withUserID u).Exceptions ≠ []) ∧
    (∀ (e : Event) (ctx : String),
      e.Exceptions ≠ [] → (e.withContext ctx).Exceptions ≠ []) ∧
    (∀ (e : Event) (tab : String) (values : Tab),
      e.Exceptions ≠ [] → (e.withMetaDataValues tab values).Exceptions ≠ []) ∧
    (∀ (e : Event) (tab key : String) (v : GoValue),
      e.Exceptions ≠ [] → (e.withMetaData tab key v).Exceptions ≠ []) ∧
    (∀ (e : Event) (net : NetOutcome),
      e.Exceptions ≠ [] → (c.notify net e).1.Exceptions ≠ []) := by
  refine ⟨by simp [Client.new], ?_, ?_, ?_, ?_, ?_⟩
  · intro e u h
    simpa [Event.withUserID] using h
  · intro e ctx h
    simpa [Event.withContext] using h
  · intro e tab values h
    simpa [Event.withMetaDataValues] using h
  · intro e tab key v h
    simpa [Event.withMetaData] using h
  · intro e net h
    unfold Client.notify
    split
    · split
      · simpa [Event.withMetaData] using h
      · simpa using h
    · simpa using h

/-- Witness for C4: the preservation conjuncts applied at a concretely
built Event. -/
theorem event_always_has_exception_witness :
    ((({ } : Client).new none [] ⟨"*errors.errorString", "boom"⟩).withUserID
      "12345").Exceptions ≠ [] ∧
    ((({ } : Client).new none [] ⟨"*errors.errorString", "boom"⟩).withContext
      "some URL").Exceptions ≠ [] ∧
    ((({ } : Client).new none [] ⟨"*errors.errorString", "boom"⟩).withMetaDataValues
      "user_info" (some [("user_agent", .str "ie4")])).Exceptions ≠ [] ∧
    ((({ } : Client).new none [] ⟨"*errors.errorString", "boom"⟩).withMetaData
      "user_info" "name" (.str "fu")).Exceptions ≠ [] ∧
    ((({ } : Client).notify (.status 200)
      (({ } : Client).new none [] ⟨"*errors.errorString", "boom"⟩)).1).Exceptions ≠ [] :=
  ⟨(event_always_has_exception { } none [] ⟨"*errors.errorString", "boom"⟩).2.1
      _ "12345" (by decide),
   (event_always_has_exception { } none [] ⟨"*errors.errorString", "boom"⟩).2.2.1
      _ "some URL" (by decide),
   (event_always_has_exception { } none [] ⟨"*errors.errorString", "boom"⟩).2.2.2.1
      _ "user_info" (some [("user_agent", .str "ie4")]) (by decide),
   (event_always_has_exception { } none [] ⟨"*errors.errorString", "boom"⟩).2.2.2.2.1
      _ "user_info" "name" (.str "fu") (by decide),
   (event_always_has_exception { } none [] ⟨"*errors.errorString", "boom"⟩).2.2.2.2.2
      _ (.status 200) (by decide)⟩

/-- C6. After `withMetaData tab k v`, the entry for `k` in tab `tab` is
`v`, every other key of that tab is unchanged, and every other tab is
unchanged. -/
theorem withMetaData_frame (e : Event) (tab k : String) (v : GoValue) :
    (e.withMetaData tab k v).metaValue tab k = some v ∧
    (∀ k', k' ≠ k →
      (e.withMetaData tab k v).metaValue tab k' = e.metaValue tab k') ∧
    (∀ tab', tab' ≠ tab →
      (e.withMetaData tab k v).tabOf tab' = e.tabOf tab') := by
  refine ⟨?_, ?_, ?_⟩
  · simp [Event.withMetaData, Event.metaValue, Event.tabOf,
      assocLookup_insert_same]
  · intro k' hk'
    simp [Event.withMetaData, Event.metaValue, Event.tabOf,
      assocLookup_insert_same, assocLookup_insert_other _ _ _ _ hk']
  · intro tab' htab'
    simp [Event.withMetaData, Event.tabOf,
      assocLookup_insert_other _ _ _ _ htab']

/-- Witness for C6: full-map set, then one-key set; the set key reads
back, an untouched key of the same tab survives, an untouched tab is
unchanged. -/
theorem withMetaData_frame_witness :
    ((({ } : Event).withMetaDataValues "user_info"
        (some [("account_id", .int 5555), ("user_agent", .str "ie4")])).withMetaData
        "user_info" "name" (.str "fu")).metaValue "user_info" "name" =
      some (.str "fu") ∧
    ((({ } : Event).withMetaDataValues "user_info"
        (some [("account_id", .int 5555), ("user_agent", .str "ie4")])).withMetaData
        "user_info" "name" (.str "fu")).metaValue "user_info" "account_id" =
      (({ } : Event).withMetaDataValues "user_info"
        (some [("account_id", .int 5555), ("user_agent", .str "ie4")])).metaValue
        "user_info" "account_id" ∧
    ((({ } : Event).withMetaDataValues "user_info"
        (some [("account_id", .int 5555), ("user_agent", .str "ie4")])).withMetaData
        "user_info" "name" (.str "fu")).tabOf "request" =
      (({ } : Event).withMetaDataValues "user_info"
        (some [("account_id", .int 5555), ("user_agent", .str "ie4")])).tabOf
        "request" :=
  ⟨(withMetaData_frame _ "user_info" "name" (.str "fu")).1,
   (withMetaData_frame _ "user_info" "name" (.str "fu")).2.1 "account_id"
     (by decide),
   (withMetaData_frame _ "user_info" "name" (.str "fu")).2.2 "request"
     (by decide)⟩

/-- C7. `withMetaDataValues tab m` after `withMetaData tab k v` leaves tab
`tab` equal to exactly `m` — the same tab contents as applying
`withMetaDataValues tab m` alone — so a key absent from `m` is removed. -/
theorem withMetaDataValues_overwrites (e : Event) (tab k : String)
    (v : GoValue) (m : Tab) :
    ((e.withMetaData tab k v).withMetaDataValues tab m).tabOf tab = m ∧
    ((e.withMetaData tab k v).withMetaDataValues tab m).tabOf tab =
      (e.withMetaDataValues tab m).tabOf tab ∧
    (assocLookup (m.getD []) k = none →
      ((e.withMetaData tab k v).withMetaDataValues tab m).metaValue tab k =
        none) := by
  refine ⟨?_, ?_, ?_⟩
  · simp [Event.withMetaDataValues, Event.tabOf, assocLookup_insert_same]
  · simp [Event.withMetaDataValues, Event.tabOf, assocLookup_insert_same]
  · intro hm
    simp [Event.withMetaDataValues, Event.metaValue, Event.tabOf,
      assocLookup_insert_same, hm]

/-- Witness for C7: key `"account_id"` set individually, then the tab
overwritten by a map without it; the key is gone. -/
theorem withMetaDataValues_overwrites_witness :
    assocLookup ((some [("user_agent", GoValue.str "ie4")] : Tab).getD [])
      "account_id" = none ∧
    ((({ } : Event).withMetaData "user_info" "account_id"
        (.int 5555)).withMetaDataValues "user_info"
        (some [("user_agent", .str "ie4")])).metaValue "user_info"
        "account_id" = none :=
  ⟨by decide,
   (withMetaDataValues_overwrites { } "user_info" "account_id" (.int 5555)
     (some [("user_agent", .str "ie4")])).2.2 (by decide)⟩

/-- C3 counterexample: with the default client (empty API key, notify
stages `["production"]`) and an event in stage `"staging"`, Notify
returns nil — not a configuration error — so the claim fails as stated
for this Event even though the API key is empty. -/
theorem notify_empty_key_counterexample :
    ({ } : Client).APIKey = "" ∧
    (({ } : Client).notify (.status 200)
      { ReleaseStage := "staging" }).2.err = none ∧
    (({ } : Client).notify (.status 200)
      { ReleaseStage := "staging" }).2.posts = [] := by
  decide

/-- C3 amended: with an empty API key Notify never issues a POST, and
whenever the event's release stage is in the notify-stages list it
returns the configuration error; for suppressed stages it returns nil. -/
theorem notify_empty_key_amended (c : Client) (net : NetOutcome)
    (event : Event) (h : c.APIKey = "") :
    (c.notify net event).2.posts = [] ∧
    (event.ReleaseStage ∈ c.NotifyReleaseStages →
      (c.notify net event).2.err = some "No Api Key Provided") := by
  constructor
  · unfold Client.notify Client.send
    split
    · simp [h]
    · simp
  · intro hm
    have hc : c.NotifyReleaseStages.contains event.ReleaseStage = true := by
      simpa using hm
    unfold Client.notify Client.send
    rw [hc]
    simp [h]

/-- Witness for C3's amended claim at the default client. -/
theorem notify_empty_key_amended_witness :
    ({ } : Client).APIKey = "" ∧
    (({ } : Client).notify (.status 200)
      { ReleaseStage := "production" }).2.posts = [] ∧
    (({ } : Client).notify (.status 200)
      { ReleaseStage := "production" }).2.err = some "No Api Key Provided" :=
  ⟨rfl,
   (notify_empty_key_amended { } (.status 200)
     { ReleaseStage := "production" } rfl).1,
   (notify_empty_key_amended { } (.status 200)
     { ReleaseStage := "production" } rfl).2 (by decide)⟩

/-- C5 counterexample: when the trace-filter hook is set to a function
returning a frame named `"panic"`, the hook's output is used verbatim,
so `stacktrace` does return a frame whose method name is `"panic"` —
the claim fails for that state of the hook. -/
theorem stacktrace_panic_counterexample :
    (stacktrace (some injectingHook) [] 0).any
      (fun f => f.Method == "panic") = true := by
  decide

/-- C5 amended: with the trace-filter hook unset, no frame of the captured
trace has method name `"panic"`, for every skip and every raw stack; with
a hook set, the result is exactly the hook applied to that panic-free
list (verbatim, so the hook itself may reintroduce such frames). -/
theorem stacktrace_no_panic_amended (frames : List RawFrame) (skip : Nat) :
    ((stacktrace none frames skip).all
      (fun f => f.Method != "panic")) = true ∧
    (∀ g : List Stacktrace → List Stacktrace,
      stacktrace (some g) frames skip = g (stacktrace none frames skip)) := by
  constructor
  · unfold stacktrace
    simp only [List.all_eq_true]
    intro f hf
    simp only [List.mem_filterMap] at hf
    obtain ⟨r, _, hr⟩ := hf
    by_cases hp : function r.fnName = "panic"
    · simp [hp] at hr
    · simp only [if_neg hp, Option.some.injEq] at hr
      subst hr
      simpa using hp
  · intro g
    rfl

/-- C8 counterexample: a recovered value that is neither an error nor a
string (here `PanicValue.other 0`) is *not* reported — `CapturePanic`
hands nothing to the notify path — though it is still re-raised; the
claim's "for any type of panic value ... reports it" fails. -/
theorem capturePanic_counterexample :
    (CapturePanic (some (.other 0))).reported = none ∧
    (CapturePanic (some (.other 0))).repanicked = some (.other 0) := by
  decide

/-- C8 amended: `CapturePanic` always re-raises the original recovered
value unchanged; it reports error values directly and string values
wrapped by `errors.New`, but silently skips reporting for any other
type of panic value. -/
theorem capturePanic_amended (v : PanicValue) :
    (CapturePanic (some v)).repanicked = some v ∧
    (∀ e, v = .err e → (CapturePanic (some v)).reported = some e) ∧
    (∀ s, v = .str s →
      (CapturePanic (some v)).reported = some (errorsNew s)) ∧
    (∀ n, v = .other n → (CapturePanic (some v)).reported = none) := by
  refine ⟨rfl, ?_, ?_, ?_⟩ <;> intro x hx <;> subst hx <;> rfl

/-- Witness for C8's amended claim at a concrete string panic value. -/
theorem capturePanic_amended_witness :
    (CapturePanic (some (.str "This should be reported!"))).repanicked =
      some (.str "This should be reported!") ∧
    (CapturePanic (some (.str "This should be reported!"))).reported =
      some (errorsNew "This should be reported!") :=
  ⟨(capturePanic_amended (.str "This should be reported!")).1,
   (capturePanic_amended (.str "This should be reported!")).2.2.1
     "This should be reported!" rfl⟩

/-- C9 counterexample: for the runtime name `"github.com/x.f"` — a package
path containing a period — the source's `function` strips only through
the *first* period, yielding `"com/x.f"`, not the unqualified `"f"`. -/
theorem function_qualifier_counterexample :
    function (some "github.com/x.f") = "com/x.f" ∧
    specUnqualifiedName "github.com/x.f" = "f" ∧
    function (some "github.com/x.f") ≠
      specUnqualifiedName "github.com/x.f" := by
  decide

/-- Helper: scanning past the first dot of `l ++ '.' :: r` yields `r`
when `l` itself has no dot. -/
theorem afterFirstDot_no_dot (l : List Char) (h : '.' ∉ l) (r : List Char) :
    afterFirstDot (l ++ '.' :: r) = some r := by
  induction l with
  | nil => simp [afterFirstDot]
  | cons c cs ih =>
    rw [List.mem_cons] at h
    push_neg at h
    simp [afterFirstDot, Ne.symm h.1, ih h.2]

/-- C9 amended: the recorded method name is the runtime name with
everything up to and including its *first* period removed (then center
dots replaced by periods); this is the fully unqualified form exactly
when the leading qualifier contains no further period. -/
theorem function_strips_first_qualifier (p r : String) (hp : '.' ∉ p.data) :
    function (some (p ++ "." ++ r)) = replaceCenterDot r := by
  have h2 : afterFirstDot (p.data ++ '.' :: r.data) = some r.data :=
    afterFirstDot_no_dot p.data hp r.data
  simp [function, stripPackage, h2]

/-- Witness for C9's amended claim at a single-segment qualifier. -/
theorem function_strips_first_qualifier_witness :
    ('.' ∉ "main".data) ∧
    function (some ("main" ++ "." ++ "work")) = replaceCenterDot "work" :=
  ⟨by decide, function_strips_first_qualifier "main" "work" (by decide)⟩

/-- Helper: after `withMetaData tab k v` the entry for `k` in tab `tab`
reads back as `v`. -/
theorem metaValue_withMetaData_same (e : Event) (tab k : String)
    (v : GoValue) :
    (e.withMetaData tab k v).metaValue tab k = some v := by
  simp [Event.withMetaData, Event.metaValue, Event.tabOf,
    assocLookup_insert_same]

/-- C10. When the event's release stage is in the notify list, the
client's host name is non-empty and the API key is empty, `Client.notify`
first injects the host name under tab `"host"`, key `"name"`, and only
then fails with the configuration error: the POST list is empty but the
returned event carries the new metadata, so an event that did not already
hold that entry is not left unchanged. -/
theorem notify_empty_key_mutates_event (c : Client) (net : NetOutcome)
    (event : Event) (hstage : event.ReleaseStage ∈ c.NotifyReleaseStages)
    (hhost : c.Hostname ≠ "") (hkey : c.APIKey = "") :
    (c.notify net event).1.metaValue "host" "name" =
      some (.str c.Hostname) ∧
    (c.notify net event).2.err = some "No Api Key Provided" ∧
    (c.notify net event).2.posts = [] ∧
    (event.metaValue "host" "name" ≠ some (.str c.Hostname) →
      (c.notify net event).1 ≠ event) := by
  have hc : c.NotifyReleaseStages.contains event.ReleaseStage = true := by
    simpa using hstage
  have h1 : c.notify net event =
      (event.withMetaData "host" "name" (.str c.Hostname),
       c.send net [event.withMetaData "host" "name" (.str c.Hostname)]) := by
    unfold Client.notify
    rw [hc]
    simp [hhost]
  refine ⟨?_, ?_, ?_, ?_⟩
  · rw [h1]
    exact metaValue_withMetaData_same event "host" "name" (.str c.Hostname)
  · rw [h1]
    simp [Client.send, hkey]
  · rw [h1]
    simp [Client.send, hkey]
  · intro hne
    rw [h1]
    intro heq
    simp only at heq
    have hv := metaValue_withMetaData_same event "host" "name"
      (.str c.Hostname)
    rw [heq] at hv
    exact hne hv

/-- Witness for C10 at a concrete client and event. -/
theorem notify_empty_key_mutates_event_witness :
    (({ Hostname := "myhost" } : Client).notify (.status 200)
      { ReleaseStage := "production" }).1.metaValue "host" "name" =
      some (.str "myhost") ∧
    (({ Hostname := "myhost" } : Client).notify (.status 200)
      { ReleaseStage := "production" }).2.err =
      some "No Api Key Provided" ∧
    (({ Hostname := "myhost" } : Client).notify (.status 200)
      { ReleaseStage := "production" }).2.posts = [] ∧
    (({ Hostname := "myhost" } : Client).notify (.status 200)
      { ReleaseStage := "production" }).1 ≠
      ({ ReleaseStage := "production" } : Event) :=
  ⟨(notify_empty_key_mutates_event { Hostname := "myhost" } (.status 200)
      { ReleaseStage := "production" } (by decide) (by decide) rfl).1,
   (notify_empty_key_mutates_event { Hostname := "myhost" } (.status 200)
      { ReleaseStage := "production" } (by decide) (by decide) rfl).2.1,
   (notify_empty_key_mutates_event { Hostname := "myhost" } (.status 200)
      { ReleaseStage := "production" } (by decide) (by decide) rfl).2.2.1,
   (notify_empty_key_mutates_event { Hostname := "myhost" } (.status 200)
      { ReleaseStage := "production" } (by decide) (by decide) rfl).2.2.2
     (by decide)⟩

end Bugsnag
